import Mathlib

/-!
Verification of the Hidden Day planner backend (FastAPI service in
`backend/`): a shallow embedding in Lean 4 of the pipeline helpers
(`utils.py`: `build_window`, `dedupe`, `rank`, `TTLCache`), the provider
layer (`providers/yelp.py`), and the orchestrating request handler
(`main.py`: `run_with_timeout`, `create_plan`), together with theorems
settling the specification claims about them.

Modelling conventions:
- Python floats are modelled as rationals (ℚ); machine timestamps as ℚ.
- Python `None` becomes `Option.none`; a dataclass becomes a structure.
- Network calls are modelled by their observable outcome (`Outcome`):
  the orchestration code never looks at anything else.
- Python dicts used as keyed stores become association lists with
  distinct keys.
-/

/-- Normalized item shared by all providers (`models.py`, `PlanItem`).
Coordinates are rationals standing for the Python floats; `source` is kept
as an optional free string since the code only ever compares it to string
literals. -/
structure PlanItem where
  title : String
  lat : ℚ
  lon : ℚ
  url : Option String
  source : Option String
  venue : Option String
  address : Option String
  whenISO : Option String
deriving DecidableEq, Repr

/-- Lower-casing of a title, as the character list of Python
`str.lower()` (ASCII case folding; the repository only feeds provider
titles through it and the claims do not depend on non-ASCII folds). -/
def lowerStr (s : String) : List Char := s.data.map Char.toLower

/-- Round-half-to-even of a rational to an integer: the rounding Python
uses when formatting a float with `f"{x:.4f}"` (applied here after
scaling by 10000). -/
def rhe (q : ℚ) : ℤ :=
  let f : ℤ := ⌊q⌋
  if q - f < 1/2 then f
  else if q - f > 1/2 then f + 1
  else if f % 2 = 0 then f else f + 1

/-- Composite dedupe key from `utils.dedupe`:
`f"{it.title.lower()}|{it.lat:.4f}|{it.lon:.4f}"`, i.e. lower-cased title
plus each coordinate rounded to 4 decimal places.  The string is modelled
by the triple of its three fields (the `|` separators make the encoding
injective; the sign of a rendered negative zero is abstracted away). -/
def dkey (it : PlanItem) : List Char × ℤ × ℤ :=
  (lowerStr it.title, rhe (it.lat * 10000), rhe (it.lon * 10000))

/-- Loop body of `utils.dedupe`: walk the list keeping a `seen` set of
keys; first occurrence of a key wins, later ones are dropped. -/
def dedupeAux (seen : List (List Char × ℤ × ℤ)) : List PlanItem → List PlanItem
  | [] => []
  | it :: rest =>
    if dkey it ∈ seen then dedupeAux seen rest
    else it :: dedupeAux (dkey it :: seen) rest

/-- Embedding of `utils.dedupe`. -/
def dedupe (items : List PlanItem) : List PlanItem := dedupeAux [] items

theorem dedupeAux_sublist (seen : List (List Char × ℤ × ℤ)) :
    ∀ l : List PlanItem, (dedupeAux seen l).Sublist l := by
  intro l
  induction l generalizing seen with
  | nil => simp [dedupeAux]
  | cons it rest ih =>
    by_cases h : dkey it ∈ seen
    · exact List.Sublist.trans (by simpa [dedupeAux, h] using ih seen)
        (List.sublist_cons_self it rest)
    · simpa [dedupeAux, h] using List.Sublist.cons₂ it (ih (dkey it :: seen))

theorem dedupeAux_not_seen (seen : List (List Char × ℤ × ℤ)) :
    ∀ l : List PlanItem, ∀ x ∈ dedupeAux seen l, dkey x ∉ seen := by
  intro l
  induction l generalizing seen with
  | nil => simp [dedupeAux]
  | cons it rest ih =>
    intro x hx
    by_cases h : dkey it ∈ seen
    · exact ih seen x (by simpa [dedupeAux, h] using hx)
    · rw [dedupeAux, if_neg h] at hx
      rcases List.mem_cons.mp hx with rfl | hx'
      · exact h
      · have := ih (dkey it :: seen) x hx'
        exact fun hs => this (List.mem_cons_of_mem _ hs)

theorem dedupeAux_pairwise (seen : List (List Char × ℤ × ℤ)) :
    ∀ l : List PlanItem,
      (dedupeAux seen l).Pairwise (fun a b => dkey a ≠ dkey b) := by
  intro l
  induction l generalizing seen with
  | nil => simp [dedupeAux]
  | cons it rest ih =>
    by_cases h : dkey it ∈ seen
    · simpa [dedupeAux, h] using ih seen
    · rw [dedupeAux, if_neg h]
      refine List.Pairwise.cons ?_ (ih (dkey it :: seen))
      intro b hb
      have := dedupeAux_not_seen (dkey it :: seen) rest b hb
      exact fun e => this (by simp [e])

theorem dedupeAux_first (seen : List (List Char × ℤ × ℤ)) :
    ∀ l : List PlanItem, ∀ x ∈ dedupeAux seen l,
      l.find? (fun y => decide (dkey y = dkey x)) = some x := by
  intro l
  induction l generalizing seen with
  | nil => simp [dedupeAux]
  | cons it rest ih =>
    intro x hx
    by_cases h : dkey it ∈ seen
    · rw [dedupeAux, if_pos h] at hx
      have hne : dkey it ≠ dkey x := by
        intro e
        exact dedupeAux_not_seen seen rest x hx (e ▸ h)
      rw [List.find?_cons_of_neg _ (by simpa using hne)]
      exact ih seen x hx
    · rw [dedupeAux, if_neg h] at hx
      rcases List.mem_cons.mp hx with rfl | hx'
      · rw [List.find?_cons_of_pos _ (by simp)]
      · have hns := dedupeAux_not_seen (dkey it :: seen) rest x hx'
        have hne : dkey it ≠ dkey x := by
          intro e
          exact hns (by simp [e])
        rw [List.find?_cons_of_neg _ (by simpa using hne)]
        exact ih (dkey it :: seen) x hx'

/-- C4: for every input list, `dedupe` output has length at most the input
length, no two output items share the composite key, the output is an
order-preserving selection of the input (so output order is first-appearance
order), and each output item is the first input item bearing its key. -/
theorem C4_dedupe_properties (items : List PlanItem) :
    (dedupe items).length ≤ items.length ∧
    (dedupe items).Pairwise (fun a b => dkey a ≠ dkey b) ∧
    (dedupe items).Sublist items ∧
    ∀ x ∈ dedupe items, items.find? (fun y => decide (dkey y = dkey x)) = some x :=
  ⟨(dedupeAux_sublist [] items).length_le,
   dedupeAux_pairwise [] items,
   dedupeAux_sublist [] items,
   dedupeAux_first [] items⟩

/-- Two items agreeing on title and coordinates but not on url: dedupe must
keep only the first. -/
def itemCafe : PlanItem :=
  ⟨"cafe", 0, 0, none, some "yelp", none, none, none⟩

/-- Duplicate of `itemCafe` under the composite key (same title and
coordinates, different url). -/
def itemCafe2 : PlanItem :=
  ⟨"cafe", 0, 0, some "u", some "yelp", none, none, none⟩

/-- Witness for C4 at a concrete duplicate-bearing input: the kept
occurrence of the key is the first one. -/
theorem C4_dedupe_properties_witness :
    [itemCafe, itemCafe2].find?
      (fun y => decide (dkey y = dkey itemCafe)) = some itemCafe :=
  (C4_dedupe_properties [itemCafe, itemCafe2]).2.2.2 itemCafe
    (by simp [dedupe, dedupeAux, dkey, itemCafe, itemCafe2])

/-- Priority table of `utils.rank` with the `dict.get(..., 1)` default:
event/eventbrite 4, google 3, yelp 2, fallback 1, anything else 1. -/
def weightOf (s : String) : ℚ :=
  if s = "event" then 4
  else if s = "eventbrite" then 4
  else if s = "google" then 3
  else if s = "yelp" then 2
  else if s = "fallback" then 1
  else 1

/-- Python `it.source or "fallback"`: both `None` and the empty string are
falsy and fall back. -/
def sourceKey (it : PlanItem) : String :=
  match it.source with
  | none => "fallback"
  | some s => if s = "" then "fallback" else s

/-- Score of one item in `utils.rank`: tier weight plus
`random.random() * 0.01`, with the random draw `j` passed in explicitly. -/
def scoreOf (it : PlanItem) (j : ℚ) : ℚ := weightOf (sourceKey it) + j * (1/100)

/-- Descending-by-score order used by `scored.sort(key=..., reverse=True)`. -/
def descBy : PlanItem × ℚ → PlanItem × ℚ → Prop := fun p q => q.2 ≤ p.2

instance : DecidableRel descBy := fun p q => inferInstanceAs (Decidable (q.2 ≤ p.2))

instance : IsTotal (PlanItem × ℚ) descBy := ⟨fun a b => le_total b.2 a.2⟩

instance : IsTrans (PlanItem × ℚ) descBy := ⟨fun _ _ _ hab hbc => le_trans hbc hab⟩

/-- Embedding of `utils.rank`: score each item (the i-th random draw is
`jitter i`), stable-sort descending by score (Python list sort is stable;
modelled by insertion sort, which places an earlier element before a later
one of equal score exactly as `reverse=True` does), truncate to `limit`. -/
def rank (items : List PlanItem) (limit : ℕ) (jitter : ℕ → ℚ) : List PlanItem :=
  let scored := items.enum.map (fun p => (p.2, scoreOf p.2 (jitter p.1)))
  ((List.insertionSort descBy scored).map Prod.fst).take limit

theorem weightOf_cases (s : String) :
    weightOf s = 1 ∨ weightOf s = 2 ∨ weightOf s = 3 ∨ weightOf s = 4 := by
  unfold weightOf
  split <;> [skip; split] <;> [skip; skip; split] <;> [skip; skip; skip; split]
    <;> [skip; skip; skip; skip; split] <;> simp

theorem tier_le_of_score_le (sa sb : String) (ja jb : ℚ)
    (_ha0 : 0 ≤ ja) (ha1 : ja < 1) (hb0 : 0 ≤ jb) (_hb1 : jb < 1)
    (h : weightOf sb + jb * (1/100) ≤ weightOf sa + ja * (1/100)) :
    weightOf sb ≤ weightOf sa := by
  rcases weightOf_cases sa with h1|h1|h1|h1 <;> rcases weightOf_cases sb with h2|h2|h2|h2
    <;> rw [h1, h2] at h ⊢ <;> linarith

theorem mem_scored_decompose (items : List PlanItem) (jitter : ℕ → ℚ)
    (p : PlanItem × ℚ)
    (hp : p ∈ items.enum.map (fun q => (q.2, scoreOf q.2 (jitter q.1)))) :
    ∃ i : ℕ, p.2 = scoreOf p.1 (jitter i) := by
  rcases List.mem_map.mp hp with ⟨q, _, hq⟩
  exact ⟨q.1, by rw [← hq]⟩

/-- C5 (amended): whenever every random draw lies in [0,1) — as
`random.random()` guarantees — `rank` returns a selection of the input
items (a sub-multiset, in general reordered by the sort) of length
`min limit (length input)`, arranged in descending source-tier weight:
the scaled jitter is below 1/100, strictly less than the gap 1 between
adjacent tier weights, so a higher-tier item never appears after a
lower-tier one. -/
theorem C5_rank_tier_order (items : List PlanItem) (limit : ℕ) (jitter : ℕ → ℚ)
    (hj : ∀ i, 0 ≤ jitter i ∧ jitter i < 1) :
    (rank items limit jitter).length = min limit items.length ∧
    (rank items limit jitter).Subperm items ∧
    (rank items limit jitter).Pairwise
      (fun a b => weightOf (sourceKey b) ≤ weightOf (sourceKey a)) := by
  simp only [rank]
  set scored := items.enum.map (fun p => (p.2, scoreOf p.2 (jitter p.1)))
    with hscored
  have hperm : List.Perm (List.insertionSort descBy scored) scored :=
    List.perm_insertionSort descBy scored
  have hmapfst : scored.map Prod.fst = items := by
    rw [hscored, List.map_map]
    exact List.enum_map_snd items
  refine ⟨?_, ?_, ?_⟩
  · rw [List.length_take, List.length_map, hperm.length_eq, hscored,
      List.length_map, List.enum_length]
  · refine List.Subperm.trans (List.take_sublist _ _).subperm ?_
    rw [← hmapfst]
    exact (hperm.map Prod.fst).subperm
  · refine List.Pairwise.take ?_
    refine (List.pairwise_map).mpr ?_
    have hsorted : (List.insertionSort descBy scored).Pairwise descBy :=
      List.sorted_insertionSort descBy scored
    refine hsorted.imp_of_mem ?_
    intro a b ha hb hr
    rcases mem_scored_decompose items jitter a
      (hscored ▸ hperm.subset ha) with ⟨ia, hia⟩
    rcases mem_scored_decompose items jitter b
      (hscored ▸ hperm.subset hb) with ⟨ib, hib⟩
    have hra : b.2 ≤ a.2 := hr
    rw [hia, hib, scoreOf, scoreOf] at hra
    exact tier_le_of_score_le (sourceKey a.1) (sourceKey b.1)
      (jitter ia) (jitter ib) (hj ia).1 (hj ia).2 (hj ib).1 (hj ib).2 hra

/-- Witness for C5 at a concrete input and the all-zero jitter draw. -/
theorem C5_rank_tier_order_witness :
    (rank [itemCafe] 12 (fun _ => 0)).length = min 12 [itemCafe].length ∧
    (rank [itemCafe] 12 (fun _ => 0)).Subperm [itemCafe] ∧
    (rank [itemCafe] 12 (fun _ => 0)).Pairwise
      (fun a b => weightOf (sourceKey b) ≤ weightOf (sourceKey a)) :=
  C5_rank_tier_order [itemCafe] 12 (fun _ => 0)
    (fun _ => ⟨le_refl 0, by norm_num⟩)

/-- Time-bound event item, outranking the static `itemCafe`. -/
def itemShow : PlanItem :=
  ⟨"show", 0, 0, none, some "event", none, none, none⟩

theorem scoreOf_itemCafe : scoreOf itemCafe 0 = 2 := by
  have hw : weightOf (sourceKey itemCafe) = 2 := by decide
  rw [scoreOf, hw]
  norm_num

theorem scoreOf_itemShow : scoreOf itemShow 0 = 4 := by
  have hw : weightOf (sourceKey itemShow) = 4 := by decide
  rw [scoreOf, hw]
  norm_num

theorem rank_pair_eval :
    rank [itemCafe, itemShow] 12 (fun _ => 0) = [itemShow, itemCafe] := by
  simp only [rank, List.enum, List.enumFrom, List.map, scoreOf_itemCafe,
    scoreOf_itemShow]
  norm_num [List.insertionSort, List.orderedInsert, descBy]

/-- Counterexample to C5 as stated: with a yelp item before an event item,
`rank` (here at the zero jitter draw, which is in [0,0.01)) reorders the
pair, so its output is not a subsequence of the input. -/
theorem C5_rank_subsequence_counterexample :
    (∀ i : ℕ, 0 ≤ (0:ℚ) ∧ (0:ℚ) < 1) ∧
    ¬ (rank [itemCafe, itemShow] 12 (fun _ => 0)).Sublist [itemCafe, itemShow] := by
  refine ⟨fun _ => ⟨le_refl 0, by norm_num⟩, ?_⟩
  rw [rank_pair_eval]
  intro h
  have heq : [itemShow, itemCafe] = [itemCafe, itemShow] := h.eq_of_length rfl
  have : itemShow = itemCafe := ((List.cons.injEq _ _ _ _).mp heq).1
  simp [itemShow, itemCafe] at this

/-- Naive Python `datetime` as used by `utils.build_window`: a calendar day
(count of days since 1970-01-01, negative before) plus a time of day.
The microsecond field is omitted: every constructor in the modelled code
zeroes it. -/
structure PyDateTime where
  day : ℤ
  hour : ℕ
  minute : ℕ
  second : ℕ
deriving DecidableEq, Repr

/-- Day count since 1970-01-01 of a proleptic-Gregorian civil date, the
standard era-based conversion (all divisions here are floor divisions,
which is what ℤ division is for the nonnegative operands produced by the
era shift). Used to name concrete dates in witnesses. -/
def daysFromCivil (y m d : ℤ) : ℤ :=
  let yAdj : ℤ := if m ≤ 2 then y - 1 else y
  let era : ℤ := yAdj / 400
  let yoe : ℤ := yAdj - era * 400
  let mp : ℤ := (m + 9) % 12
  let doy : ℤ := (153 * mp + 2) / 5 + d - 1
  let doe : ℤ := yoe * 365 + yoe / 4 - yoe / 100 + doy
  era * 146097 + doe - 719468

/-- Python `datetime.weekday()`: Monday = 0 .. Sunday = 6.  Day 0
(1970-01-01) was a Thursday. -/
def pyWeekday (day : ℤ) : ℤ := (day + 3) % 7

example : daysFromCivil 1970 1 1 = 0 := by decide
example : daysFromCivil 1970 1 2 = 1 := by decide
example : daysFromCivil 1969 12 31 = -1 := by decide
example : daysFromCivil 2000 3 1 = 11017 := by decide
example : pyWeekday (daysFromCivil 2025 10 20) = 0 := by decide
example : pyWeekday (daysFromCivil 2025 10 25) = 5 := by decide
example : pyWeekday (daysFromCivil 2025 10 26) = 6 := by decide
example : daysFromCivil 2025 10 25 = daysFromCivil 2025 10 20 + 5 := by decide

/-- Embedding of `utils.build_window`.  The two optional range bounds model
the `range_start`/`range_end` strings: `some` stands for a present,
non-empty (hence truthy) string already parsed by `datetime.fromisoformat`,
`none` for an absent or empty one.  Note the source has no failure path
for a missing bound: the `custom` guard just falls through, past the
`day` and `weekend` tests, into the final week branch. -/
def build_window (base : PyDateTime) (timeframe : String)
    (range_start range_end : Option PyDateTime) : PyDateTime × PyDateTime :=
  match timeframe, range_start, range_end with
  | "custom", some s, some e => (s, e)
  | _, _, _ =>
    let day_start : PyDateTime := { base with hour := 0, minute := 0, second := 0 }
    let day_end : PyDateTime := { base with hour := 23, minute := 59, second := 59 }
    if timeframe = "day" then (day_start, day_end)
    else if timeframe = "weekend" then
      let dow := pyWeekday base.day
      let days_to_sat := (5 - dow) % 7
      let sat : PyDateTime := ⟨base.day + days_to_sat, 0, 0, 0⟩
      let sun_end : PyDateTime := ⟨sat.day + 1, 23, 59, 59⟩
      (sat, sun_end)
    else
      let dow := pyWeekday base.day
      let monday : PyDateTime := ⟨base.day - (dow + 7 - 0) % 7, 0, 0, 0⟩
      let sunday_end : PyDateTime := ⟨monday.day + 6, 23, 59, 59⟩
      (monday, sunday_end)

theorem build_window_weekend_eval (base : PyDateTime) :
    build_window base "weekend" none none =
      (⟨base.day + (5 - pyWeekday base.day) % 7, 0, 0, 0⟩,
       ⟨base.day + (5 - pyWeekday base.day) % 7 + 1, 23, 59, 59⟩) := rfl

/-- C7: for every base date, the weekend window starts on the next Saturday
on or after the date at midnight (the date itself when it is a Saturday)
and ends the following Sunday at 23:59:59; concretely, Monday 2025-10-20
maps to Saturday 2025-10-25T00:00:00 through Sunday 2025-10-26T23:59:59. -/
theorem C7_build_window_weekend (base : PyDateTime) :
    pyWeekday (build_window base "weekend" none none).1.day = 5 ∧
    base.day ≤ (build_window base "weekend" none none).1.day ∧
    (build_window base "weekend" none none).1.day < base.day + 7 ∧
    (build_window base "weekend" none none).1.hour = 0 ∧
    (build_window base "weekend" none none).1.minute = 0 ∧
    (build_window base "weekend" none none).1.second = 0 ∧
    (pyWeekday base.day = 5 →
      (build_window base "weekend" none none).1.day = base.day) ∧
    (build_window base "weekend" none none).2.day
        = (build_window base "weekend" none none).1.day + 1 ∧
    pyWeekday (build_window base "weekend" none none).2.day = 6 ∧
    (build_window base "weekend" none none).2.hour = 23 ∧
    (build_window base "weekend" none none).2.minute = 59 ∧
    (build_window base "weekend" none none).2.second = 59 ∧
    build_window ⟨daysFromCivil 2025 10 20, 0, 0, 0⟩ "weekend" none none
      = (⟨daysFromCivil 2025 10 25, 0, 0, 0⟩,
         ⟨daysFromCivil 2025 10 26, 23, 59, 59⟩) := by
  rw [build_window_weekend_eval]
  dsimp only
  refine ⟨?_, ?_, ?_, rfl, rfl, rfl, ?_, rfl, ?_, rfl, rfl, rfl, by decide⟩
  · unfold pyWeekday
    omega
  · unfold pyWeekday
    omega
  · unfold pyWeekday
    omega
  · unfold pyWeekday
    omega
  · unfold pyWeekday
    omega

/-- Witness for C7 at a date that is already a Saturday (2025-10-25): zero
days are added. -/
theorem C7_build_window_weekend_witness :
    (build_window ⟨daysFromCivil 2025 10 25, 0, 0, 0⟩ "weekend" none none).1.day
      = (⟨daysFromCivil 2025 10 25, 0, 0, 0⟩ : PyDateTime).day :=
  (C7_build_window_weekend ⟨daysFromCivil 2025 10 25, 0, 0, 0⟩).2.2.2.2.2.2.1
    (by decide)

/-- C1 (amended): `build_window` with timeframe custom and a missing bound
does not fail; the `custom` guard falls through and the call returns the
Monday-through-Sunday week window of the base date. -/
theorem C1_build_window_custom_missing (base : PyDateTime)
    (rs re : Option PyDateTime) :
    build_window base "custom" rs none = build_window base "week" none none ∧
    build_window base "custom" none re = build_window base "week" none none := by
  constructor
  · cases rs <;> rfl
  · cases re <;> rfl

/-- Counterexample to C1 as stated: with a valid date (Monday 2025-10-20),
timeframe custom, a present start bound and a missing end bound, the call
returns a window — the week window 2025-10-20T00:00:00 through
2025-10-26T23:59:59 — instead of failing with InvalidRequest (the code has
no such failure path). -/
theorem C1_build_window_custom_missing_counterexample :
    build_window ⟨daysFromCivil 2025 10 20, 0, 0, 0⟩ "custom"
        (some ⟨daysFromCivil 2025 10 1, 0, 0, 0⟩) none
      = (⟨daysFromCivil 2025 10 20, 0, 0, 0⟩,
         ⟨daysFromCivil 2025 10 26, 23, 59, 59⟩) := by decide

/-- Validity of the digit body accepted by Python `int(...)`: a nonempty
digit string in which every underscore is flanked by digits. -/
def numBody : List Char → Bool
  | [] => false
  | [c] => c.isDigit
  | c :: '_' :: rest => c.isDigit && numBody rest
  | c :: rest => c.isDigit && numBody rest

/-- Digit-by-digit value of a digit/underscore run (underscores skipped). -/
def digitsVal (cs : List Char) : ℕ :=
  (cs.filter (fun c => c ≠ '_')).foldl (fun acc c => acc * 10 + (c.toNat - 48)) 0

/-- Embedding of Python `int(budget)` on strings: optional surrounding
whitespace, optional single sign, then digits with optional single
underscores between them; anything else raises, modelled as `none`
(ASCII digits; Python also accepts other Unicode digit classes, which no
claim exercises). -/
def pyStrToInt (s : String) : Option ℤ :=
  let t1 := s.data.dropWhile Char.isWhitespace
  let t := (t1.reverse.dropWhile Char.isWhitespace).reverse
  match t with
  | [] => none
  | c :: rest =>
    let signed : ℤ × List Char :=
      if c = '-' then (-1, rest) else if c = '+' then (1, rest) else (1, t)
    if numBody signed.2 then some (signed.1 * (digitsVal signed.2 : ℤ)) else none

/-- Embedding of `providers/yelp.py` `_price_band`: four price bands by
parsed budget, full range `"1,2,3"` when the budget does not parse. -/
def price_band (budget : String) : String :=
  match pyStrToInt budget with
  | none => "1,2,3"
  | some b =>
    if b < 25 then "1"
    else if b < 60 then "1,2"
    else if b < 120 then "2,3"
    else "3,4"

/-- C8: the price-band mapping sends a parsed budget below 25 to "1",
below 60 to "1,2", below 120 to "2,3", 120 or above to "3,4", and any
non-numeric budget to the full range "1,2,3"; in particular "20", "50",
"100", "200" and a non-numeric budget map as the spec lists. -/
theorem C8_price_band (s : String) :
    (∀ b : ℤ, pyStrToInt s = some b →
      (b < 25 → price_band s = "1") ∧
      (25 ≤ b → b < 60 → price_band s = "1,2") ∧
      (60 ≤ b → b < 120 → price_band s = "2,3") ∧
      (120 ≤ b → price_band s = "3,4")) ∧
    (pyStrToInt s = none → price_band s = "1,2,3") ∧
    price_band "20" = "1" ∧ price_band "50" = "1,2" ∧
    price_band "100" = "2,3" ∧ price_band "200" = "3,4" ∧
    price_band "abc" = "1,2,3" := by
  refine ⟨?_, ?_, by decide, by decide, by decide, by decide, by decide⟩
  · intro b hb
    refine ⟨?_, ?_, ?_, ?_⟩
    · intro h1
      simp only [price_band, hb]
      rw [if_pos h1]
    · intro h1 h2
      simp only [price_band, hb]
      rw [if_neg (by omega), if_pos h2]
    · intro h1 h2
      simp only [price_band, hb]
      rw [if_neg (by omega), if_neg (by omega), if_pos h2]
    · intro h1
      simp only [price_band, hb]
      rw [if_neg (by omega), if_neg (by omega), if_neg (by omega)]
  · intro hn
    simp only [price_band, hn]

/-- Witness for C8 at the budget "20", which parses to 20 < 25. -/
theorem C8_price_band_witness : price_band "20" = "1" :=
  (((C8_price_band "20").1 20 (by decide)).1) (by decide)

/-- One upstream business record as `fetch_yelp` reads it: the fields it
accesses, with `none` modelling an absent key (or absent `coordinates`
dict). -/
structure YelpBusiness where
  name : Option String
  coordLat : Option ℚ
  coordLon : Option ℚ
  url : Option String
  displayAddress : List String
deriving DecidableEq, Repr

/-- Embedding of the response loop in `fetch_yelp.query`: the guard
`if not coords.get("latitude") or not coords.get("longitude"): continue`
is a truthiness test, so a missing coordinate and a coordinate equal to 0
are discarded alike; surviving records become yelp-sourced items, with the
display address joined by ", " when present. -/
def yelp_items : List YelpBusiness → List PlanItem
  | [] => []
  | b :: rest =>
    match b.coordLat, b.coordLon with
    | some la, some lo =>
      if la = 0 ∨ lo = 0 then yelp_items rest
      else
        { title := b.name.getD "Place", lat := la, lon := lo, url := b.url,
          source := some "yelp", venue := none,
          address :=
            if b.displayAddress = [] then none
            else some (String.intercalate ", " b.displayAddress),
          whenISO := none } :: yelp_items rest
    | _, _ => yelp_items rest

/-- C10: any upstream business whose latitude or longitude is missing or
equal to 0 contributes no item — the truthiness check cannot tell the
valid coordinate 0.0 from an absent one. -/
theorem C10_yelp_zero_coordinate_dropped (b : YelpBusiness)
    (rest : List YelpBusiness)
    (h : b.coordLat = none ∨ b.coordLat = some 0 ∨
         b.coordLon = none ∨ b.coordLon = some 0) :
    yelp_items (b :: rest) = yelp_items rest := by
  rcases h with h | h | h | h
  · rcases hlon : b.coordLon with _ | lo <;> simp [yelp_items, h, hlon]
  · rcases hlon : b.coordLon with _ | lo <;> simp [yelp_items, h, hlon]
  · rcases hlat : b.coordLat with _ | la <;> simp [yelp_items, h, hlat]
  · rcases hlat : b.coordLat with _ | la <;> simp [yelp_items, h, hlat]

/-- Business on the equator: latitude exactly 0, longitude valid. -/
def bizEquator : YelpBusiness :=
  ⟨some "Equator Cafe", some 0, some 7, some "u", ["Addr 1"]⟩

/-- Witness for C10: the equator business (latitude 0.0) yields no item. -/
theorem C10_yelp_zero_coordinate_dropped_witness :
    yelp_items [bizEquator] = [] :=
  C10_yelp_zero_coordinate_dropped bizEquator []
    (Or.inr (Or.inl rfl))

/-- Outcome of one awaited coroutine as `run_with_timeout` can observe it:
a returned value, an `asyncio.TimeoutError`, or any other exception with
its rendered message. -/
inductive Outcome (α : Type) where
  | success (value : α)
  | timeout
  | failure (msg : String)
deriving DecidableEq, Repr

/-- Embedding of `main.run_with_timeout` (the list-returning provider
case): a total function — the source catches `TimeoutError` and every
other `Exception`, so no exception escapes — returning the pair
`(items, error-message-or-None)` built from the outcome. -/
def run_with_timeout (o : Outcome (List PlanItem)) (seconds : ℕ) (label : String) :
    List PlanItem × Option String :=
  match o with
  | .success items => (items, none)
  | .timeout => ([], some (label ++ " timed out after " ++ toString seconds ++ "s"))
  | .failure e => ([], some (label ++ " error: " ++ e))

/-- C6: `run_with_timeout` (total by construction, as the source catches
every exception class) returns the operation result with no message on
success, an empty list with the descriptive timeout message on timeout,
and an empty list with a message embedding the rendered failure on any
other failure. -/
theorem C6_run_with_timeout (seconds : ℕ) (label : String) :
    (∀ items, run_with_timeout (.success items) seconds label = (items, none)) ∧
    run_with_timeout .timeout seconds label
      = ([], some (label ++ " timed out after " ++ toString seconds ++ "s")) ∧
    (∀ e, (run_with_timeout (.failure e) seconds label).1 = [] ∧
      ∃ pre, (run_with_timeout (.failure e) seconds label).2 = some (pre ++ e)) :=
  ⟨fun _ => rfl, rfl, fun e => ⟨rfl, ⟨label ++ " error: ", rfl⟩⟩⟩

/-- Witness for C6 at a concrete timeout outcome. -/
theorem C6_run_with_timeout_witness :
    run_with_timeout .timeout 12 "yelp"
      = ([], some ("yelp" ++ " timed out after " ++ toString 12 ++ "s")) :=
  (C6_run_with_timeout 12 "yelp").2.1

/-- Embedding of `utils.CacheEntry`: absolute expiry instant plus payload. -/
structure CacheEntry (V : Type) where
  expires : ℚ
  data : V
deriving DecidableEq, Repr

/-- Embedding of `utils.TTLCache`: the backing dict `_store` is modelled
as an association list with pairwise-distinct keys (maintained by `set`).
The current value of `time.time()` is passed explicitly to `get`/`set`. -/
structure TTLCache (K V : Type) where
  ttl : ℚ
  store : List (K × CacheEntry V)
deriving DecidableEq, Repr

/-- Embedding of `TTLCache.get`: a found entry is returned while
`entry.expires < time.time()` is false, and popped (lazy eviction)
otherwise; the possibly-updated cache is returned alongside. -/
def TTLCache.get {K V : Type} [DecidableEq K] (c : TTLCache K V) (key : K)
    (now : ℚ) : Option V × TTLCache K V :=
  match c.store.find? (fun p => decide (p.1 = key)) with
  | none => (none, c)
  | some p =>
    if p.2.expires < now then
      (none, { c with store := c.store.filter (fun q => !(decide (q.1 = key))) })
    else (some p.2.data, c)

/-- Embedding of `TTLCache.set`: store the value under the key with expiry
`time.time() + ttl` (dict assignment replaces any previous entry). -/
def TTLCache.set {K V : Type} [DecidableEq K] (c : TTLCache K V) (key : K)
    (value : V) (now : ℚ) : TTLCache K V :=
  { c with store :=
      (key, ⟨now + c.ttl, value⟩) :: c.store.filter (fun q => !(decide (q.1 = key))) }

/-- Provider/flag configuration read from the environment by `main.py`:
a provider is enabled when its key/token string is truthy (non-empty),
and eventbrite additionally needs its feature flag. -/
structure Config where
  yelpKey : String
  tmKey : String
  ebEnabled : Bool
  ebToken : String
  providerTimeout : ℕ
  geocodeTimeout : ℕ
deriving DecidableEq, Repr

/-- Embedding of `models.PlanRequest`.  `dateDT` is the
`datetime.fromisoformat(req.date)` parse of `date` used by
`build_window`; the optional range bounds are as in `build_window`. -/
structure Req where
  date : String
  budget : String
  interests : String
  location : String
  timeframe : String
  useOpenNow : Bool
  rangeStart : Option PyDateTime
  rangeEnd : Option PyDateTime
  dateDT : PyDateTime
deriving DecidableEq, Repr

/-- Embedding of `models.PlanResponse` (`center` as the lat/lng pair). -/
structure Resp where
  date : String
  budget : String
  interests : String
  location : String
  center : ℚ × ℚ
  items : List PlanItem
deriving DecidableEq, Repr

/-- Observable result of one `create_plan` call: a 200 payload or an
`HTTPException(status, detail)`. -/
inductive PlanResult where
  | ok (resp : Resp)
  | httpError (status : ℕ) (detail : String)
deriving DecidableEq, Repr

/-- Which external calls the handler issued, recorded for the claims about
call avoidance (cache hits, unconfigured providers). -/
structure Trace where
  geocodeCalled : Bool
  providersCalled : List String
deriving DecidableEq, Repr

/-- The geocode leg of `create_plan`: `run_with_timeout(geocode(...))`
returns `(None-or-center, error)`; on timeout/failure the source returns
the empty list, which is falsy for the following `not center` test exactly
like the `none` used here. -/
def geoStep (o : Outcome (Option (ℚ × ℚ))) (seconds : ℕ) :
    Option (ℚ × ℚ) × Option String :=
  match o with
  | .success c => (c, none)
  | .timeout => (none, some ("geocode timed out after " ++ toString seconds ++ "s"))
  | .failure e => (none, some ("geocode error: " ++ e))

/-- The provider fan-out list built by `create_plan`: one labelled task per
enabled provider, in the fixed source order yelp, ticketmaster,
eventbrite.  Each provider call is represented by its outcome. -/
def enabledProviders (cfg : Config) (yelpO tmO ebO : Outcome (List PlanItem)) :
    List (String × Outcome (List PlanItem)) :=
  (if cfg.yelpKey = "" then [] else [("yelp", yelpO)]) ++
  (if cfg.tmKey = "" then [] else [("ticketmaster", tmO)]) ++
  (if cfg.ebEnabled ∧ cfg.ebToken ≠ "" then [("eventbrite", ebO)] else [])

/-- The `(items, err)` pairs produced by awaiting all enabled tasks. -/
def collectedResults (cfg : Config) (yelpO tmO ebO : Outcome (List PlanItem)) :
    List (List PlanItem × Option String) :=
  (enabledProviders cfg yelpO tmO ebO).map
    (fun p => run_with_timeout p.2 cfg.providerTimeout p.1)

/-- All provider items concatenated in task order (`items_all`): extending
only when `items` is truthy equals unconditional extension. -/
def mergedItems (cfg : Config) (yelpO tmO ebO : Outcome (List PlanItem)) :
    List PlanItem :=
  ((collectedResults cfg yelpO tmO ebO).map Prod.fst).flatten

/-- The collected non-fatal error strings (`errors`), in task order; every
message produced by `run_with_timeout` is non-empty, hence truthy. -/
def collectedErrors (cfg : Config) (yelpO tmO ebO : Outcome (List PlanItem)) :
    List String :=
  (collectedResults cfg yelpO tmO ebO).filterMap Prod.snd

/-- Embedding of `main.create_plan`.  External effects enter as data: the
current time, the geocode outcome, the three provider outcomes and the
random draws.  Returned: the HTTP-visible result, the final response
cache, and the call trace.  A cached hit is a non-empty dict (a dumped
`PlanResponse` always has keys), hence truthy, so `some` returns it
directly. -/
def create_plan (cfg : Config) (cache : TTLCache (Req × Bool) Resp) (now : ℚ)
    (req : Req) (geo : Outcome (Option (ℚ × ℚ)))
    (yelpO tmO ebO : Outcome (List PlanItem)) (jitter : ℕ → ℚ) :
    PlanResult × TTLCache (Req × Bool) Resp × Trace :=
  let key : Req × Bool := (req, cfg.ebEnabled)
  let hitRes := cache.get key now
  match hitRes.1 with
  | some h => (.ok h, hitRes.2, ⟨false, []⟩)
  | none =>
    let g := geoStep geo cfg.geocodeTimeout
    match g.1, g.2 with
    | some center, none =>
      let _window := build_window req.dateDT req.timeframe req.rangeStart req.rangeEnd
      let enabled := enabledProviders cfg yelpO tmO ebO
      if enabled = [] then
        (.httpError 500 "No providers configured", hitRes.2, ⟨true, []⟩)
      else
        let itemsAll := mergedItems cfg yelpO tmO ebO
        let errors := collectedErrors cfg yelpO tmO ebO
        let items := rank (dedupe itemsAll) 12 jitter
        let resp : Resp := ⟨req.date, req.budget, req.interests, req.location,
          center, items⟩
        let cache2 := hitRes.2.set key resp now
        if items = [] then
          (.httpError 500 (errors.head?.getD "No results"), cache2,
            ⟨true, enabled.map Prod.fst⟩)
        else (.ok resp, cache2, ⟨true, enabled.map Prod.fst⟩)
    | _, _ =>
      (.httpError 400 "Geocoding failed or timed out", hitRes.2, ⟨true, []⟩)

/-- C2 (amended): with zero providers configured, `create_plan` (on a cache
miss) fails with 500 "No providers configured" and calls no provider — but
only after attempting geocoding: the configuration check sits after the
geocode step, whose failure would produce a 400 first.  Stated here for a
successful geocode. -/
theorem C2_no_providers_500 (cfg : Config) (cache : TTLCache (Req × Bool) Resp)
    (now : ℚ) (req : Req) (ctr : ℚ × ℚ)
    (yelpO tmO ebO : Outcome (List PlanItem)) (jitter : ℕ → ℚ)
    (hmiss : (cache.get (req, cfg.ebEnabled) now).1 = none)
    (hy : cfg.yelpKey = "") (ht : cfg.tmKey = "")
    (he : cfg.ebEnabled = false ∨ cfg.ebToken = "") :
    create_plan cfg cache now req (.success (some ctr)) yelpO tmO ebO jitter
      = (.httpError 500 "No providers configured",
         (cache.get (req, cfg.ebEnabled) now).2, ⟨true, []⟩) := by
  have hen : enabledProviders cfg yelpO tmO ebO = [] := by
    rcases he with he | he <;> simp [enabledProviders, hy, ht, he]
  simp only [create_plan, hmiss, geoStep, hen, if_pos]

/-- Environment with no provider configured at all. -/
def cfg0 : Config := ⟨"", "", false, "", 12, 10⟩

/-- Empty per-process response cache with the production 600s TTL. -/
def cache0 : TTLCache (Req × Bool) Resp := ⟨600, []⟩

/-- Concrete request: Berlin, Monday 2025-10-20, weekend, budget 20. -/
def req0 : Req :=
  ⟨"2025-10-20", "20", "live music", "Berlin", "weekend", false, none, none,
   ⟨daysFromCivil 2025 10 20, 0, 0, 0⟩⟩

/-- Witness for C2 (amended) at the concrete unconfigured environment. -/
theorem C2_no_providers_500_witness :
    create_plan cfg0 cache0 0 req0 (.success (some (10, 20)))
        .timeout .timeout .timeout (fun _ => 0)
      = (.httpError 500 "No providers configured",
         (cache0.get (req0, cfg0.ebEnabled) 0).2, ⟨true, []⟩) :=
  C2_no_providers_500 cfg0 cache0 0 req0 (10, 20) .timeout .timeout .timeout
    (fun _ => 0) rfl rfl rfl (Or.inl rfl)

/-- Counterexample to C2 as stated: in the same unconfigured environment,
the geocode call is attempted (the trace records it) and its outcome
decides the response — a geocode timeout yields the 400 geocoding error,
not the configuration 500 — so "no geocode call is attempted" is false. -/
theorem C2_geocode_attempted_counterexample :
    (create_plan cfg0 cache0 0 req0 (.success (some (10, 20)))
        .timeout .timeout .timeout (fun _ => 0)).2.2.geocodeCalled = true ∧
    (create_plan cfg0 cache0 0 req0 .timeout
        .timeout .timeout .timeout (fun _ => 0)).1
      = .httpError 400 "Geocoding failed or timed out" :=
  ⟨rfl, rfl⟩

/-- An awaited provider task that contributes no items: a timeout, an
error, or a legitimately empty success. -/
def emptyOutcome : Outcome (List PlanItem) → Prop
  | .success l => l = []
  | .timeout => True
  | .failure _ => True

theorem run_with_timeout_fst_empty (o : Outcome (List PlanItem)) (s : ℕ)
    (lbl : String) (h : emptyOutcome o) : (run_with_timeout o s lbl).1 = [] := by
  cases o with
  | success l => exact h
  | timeout => rfl
  | failure e => rfl

theorem run_fst_flatten_nil (s : ℕ) (l : List (String × Outcome (List PlanItem)))
    (h : ∀ p ∈ l, emptyOutcome p.2) :
    ((l.map (fun p => run_with_timeout p.2 s p.1)).map Prod.fst).flatten = [] := by
  induction l with
  | nil => rfl
  | cons p rest ih =>
    simp only [List.map_cons, List.flatten_cons]
    rw [run_with_timeout_fst_empty p.2 s p.1 (h p (List.mem_cons_self p rest))]
    simp only [List.nil_append]
    exact ih (fun q hq => h q (List.mem_cons_of_mem p hq))

/-- C3: on a cache miss with a successful geocode, at least one enabled
provider, and every enabled provider contributing no items, `create_plan`
still writes the merged empty response to the response cache and then
fails with a 500 whose detail is the first collected error message when
any error was collected ("No results" otherwise). -/
theorem C3_all_empty_writes_cache_then_500 (cfg : Config)
    (cache : TTLCache (Req × Bool) Resp) (now : ℚ) (req : Req) (ctr : ℚ × ℚ)
    (yelpO tmO ebO : Outcome (List PlanItem)) (jitter : ℕ → ℚ)
    (hmiss : (cache.get (req, cfg.ebEnabled) now).1 = none)
    (hne : enabledProviders cfg yelpO tmO ebO ≠ [])
    (hempty : ∀ p ∈ enabledProviders cfg yelpO tmO ebO, emptyOutcome p.2) :
    create_plan cfg cache now req (.success (some ctr)) yelpO tmO ebO jitter
      = (.httpError 500
           ((collectedErrors cfg yelpO tmO ebO).head?.getD "No results"),
         (cache.get (req, cfg.ebEnabled) now).2.set (req, cfg.ebEnabled)
           ⟨req.date, req.budget, req.interests, req.location, ctr, []⟩ now,
         ⟨true, (enabledProviders cfg yelpO tmO ebO).map Prod.fst⟩) ∧
    (∀ e es, collectedErrors cfg yelpO tmO ebO = e :: es →
      (create_plan cfg cache now req (.success (some ctr))
        yelpO tmO ebO jitter).1 = .httpError 500 e) := by
  have hmerged : mergedItems cfg yelpO tmO ebO = [] := by
    unfold mergedItems collectedResults
    exact run_fst_flatten_nil cfg.providerTimeout _ hempty
  have hmain : create_plan cfg cache now req (.success (some ctr))
      yelpO tmO ebO jitter
      = (.httpError 500
           ((collectedErrors cfg yelpO tmO ebO).head?.getD "No results"),
         (cache.get (req, cfg.ebEnabled) now).2.set (req, cfg.ebEnabled)
           ⟨req.date, req.budget, req.interests, req.location, ctr, []⟩ now,
         ⟨true, (enabledProviders cfg yelpO tmO ebO).map Prod.fst⟩) := by
    simp only [create_plan, hmiss, geoStep, hmerged, if_neg hne]
    rfl
  refine ⟨hmain, ?_⟩
  intro e es herr
  rw [hmain]
  simp [herr]

/-- One provider (yelp) configured; everything else off. -/
def cfg1 : Config := ⟨"k", "", false, "", 12, 10⟩

/-- Witness for C3: yelp enabled and failing with "boom"; the handler
returns the 500 carrying that first collected message. -/
theorem C3_all_empty_writes_cache_then_500_witness :
    (create_plan cfg1 cache0 0 req0 (.success (some (10, 20)))
        (.failure "boom") .timeout .timeout (fun _ => 0)).1
      = .httpError 500 "yelp error: boom" :=
  (C3_all_empty_writes_cache_then_500 cfg1 cache0 0 req0 (10, 20)
      (.failure "boom") .timeout .timeout (fun _ => 0) rfl
      (by simp [enabledProviders, cfg1])
      (by
        intro p hp
        simp [enabledProviders, cfg1] at hp
        rw [hp]
        exact trivial)).2 "yelp error: boom" [] rfl

theorem TTLCache_set_find {K V : Type} [DecidableEq K] (c : TTLCache K V)
    (k : K) (v : V) (t0 : ℚ) :
    (c.set k v t0).store.find? (fun p => decide (p.1 = k))
      = some (k, ⟨t0 + c.ttl, v⟩) := by
  rw [TTLCache.set]
  exact List.find?_cons_of_pos _ (by simp)

/-- C9 (amended): a `get` strictly before — or even exactly at — the
expiry instant `set`-time + TTL returns the stored value with the store
untouched (so an identical request within the TTL, flag state included in
the key, is served from cache with no geocode and no provider call, as
the last conjunct states for `create_plan`); a `get` strictly past the
expiry instant returns `None` and removes the entry (lazy eviction). -/
theorem C9_cache_roundtrip (K V : Type) (dK : DecidableEq K)
    (c : TTLCache K V) (k : K) (v : V) (t0 t1 : ℚ)
    (cfg : Config) (cache : TTLCache (Req × Bool) Resp) (now : ℚ) (req : Req)
    (geo : Outcome (Option (ℚ × ℚ))) (yelpO tmO ebO : Outcome (List PlanItem))
    (jitter : ℕ → ℚ) (h : Resp)
    (hhit : (cache.get (req, cfg.ebEnabled) now).1 = some h) :
    (t1 ≤ t0 + c.ttl →
      (c.set k v t0).get k t1 = (some v, c.set k v t0)) ∧
    (t0 + c.ttl < t1 →
      ((c.set k v t0).get k t1).1 = none ∧
      ∀ p ∈ ((c.set k v t0).get k t1).2.store, p.1 ≠ k) ∧
    create_plan cfg cache now req geo yelpO tmO ebO jitter
      = (.ok h, (cache.get (req, cfg.ebEnabled) now).2, ⟨false, []⟩) := by
  refine ⟨?_, ?_, ?_⟩
  · intro hfresh
    simp only [TTLCache.get, TTLCache_set_find]
    rw [if_neg (not_lt.mpr hfresh)]
  · intro hpast
    simp only [TTLCache.get, TTLCache_set_find]
    rw [if_pos hpast]
    refine ⟨rfl, ?_⟩
    intro p hp
    simp only [List.mem_filter] at hp
    simpa using hp.2
  · simp only [create_plan, hhit]

/-- Fresh cache entry for `req0` (flag off), expiring at instant 1000. -/
def cacheHit : TTLCache (Req × Bool) Resp :=
  ⟨600, [((req0, false), ⟨1000, ⟨"2025-10-20", "20", "live music", "Berlin",
    (10, 20), []⟩⟩)]⟩

/-- Witness for C9: a concrete get 300s after a set with TTL 600 returns
the stored value (applied with a concrete cache hit for the handler part). -/
theorem C9_cache_roundtrip_witness :
    (TTLCache.set (⟨600, []⟩ : TTLCache ℕ ℕ) 1 42 0).get 1 300
      = (some 42, TTLCache.set (⟨600, []⟩ : TTLCache ℕ ℕ) 1 42 0) :=
  (C9_cache_roundtrip ℕ ℕ inferInstance ⟨600, []⟩ 1 42 0 300
      cfg0 cacheHit 0 req0 .timeout .timeout .timeout .timeout (fun _ => 0)
      ⟨"2025-10-20", "20", "live music", "Berlin", (10, 20), []⟩
      (by norm_num [TTLCache.get, cacheHit, cfg0, List.find?])).1
    (by norm_num)

/-- Counterexample to C9 as stated: at exactly the expiry instant
(set at 0, TTL 600, get at 600) the code still returns the stored value,
because the eviction test is the strict `entry.expires < time.time()`;
the claim demands `None` for a get "at or past" the expiry instant. -/
theorem C9_cache_boundary_counterexample :
    ((TTLCache.set (⟨600, []⟩ : TTLCache ℕ ℕ) 1 42 0).get 1 600).1 = some 42 := by
  simp only [TTLCache.get, TTLCache_set_find]
  norm_num
